import Mathlib

/-!
Verification of the `ZScoreTransformer` defined in
`4-week4/1-exending-sklearn.ipynb` (final cell):

```python
class ZScoreTransformer(BaseEstimator, TransformerMixin):
    def __init__(self):
        self.mean_ = None
        self.std_ = None

    def fit(self, X, y=None):
        self.mean_ = np.mean(X, axis=0)
        self.std_ = np.std(X, axis=0)
        return self

    def transform(self, X):
        return (X - self.mean_) / self.std_

    def fit_transform(self, X, y=None):
        return self.fit(X).transform(X)
```

The embedding idealizes numpy floating-point numbers as exact reals, but keeps
the Python-level control flow faithful: there is no input validation anywhere,
`transform` on an unfitted instance hits numpy's `TypeError` (array minus
`None`), and a column-count mismatch between the fitted statistics and the
input of `transform` goes through numpy's last-axis broadcasting, which either
silently broadcasts (when one of the two counts is 1) or raises a broadcasting
`ValueError`.  IEEE special values (the `inf`/`nan` produced by dividing by a
zero standard deviation, or by taking the mean of zero rows) are not
represented; what the model does capture faithfully is that no exception is
raised in those situations.
-/

namespace ZScore

/-- A dataset: a two-dimensional numeric table given as a list of rows
(rows = observations, columns = features); entries idealized as exact reals.
A zero-row dataset is `[]`, which — unlike a numpy array of shape `(0, k)` —
carries no column count of its own. -/
abbrev Mat := List (List ℝ)

/-- A one-dimensional numeric array (a row, or a per-column statistics vector). -/
abbrev Vec := List ℝ

/-- Row count of a dataset (numpy `shape[0]`). -/
def nrows (X : Mat) : ℕ := X.length

/-- Column count of a dataset (numpy `shape[1]` of a rectangular array,
read off the first row; 0 for the empty list of rows). -/
def ncols (X : Mat) : ℕ := (X.headD []).length

/-- Rectangularity: every row has length `k`. -/
def Rect (k : ℕ) (X : Mat) : Prop := ∀ row ∈ X, row.length = k

/-- Entry of row `r`, column `c` (default 0 outside the range; rectangular
inputs within bounds never read the default). -/
def entry (X : Mat) (r c : ℕ) : ℝ := (X.getD r []).getD c 0

/-- Sum of column `c` across all rows. -/
def colSum (X : Mat) (c : ℕ) : ℝ := (X.map (fun row => row.getD c 0)).sum

/-- `np.mean(X, axis=0)`: per-column arithmetic mean. -/
noncomputable def npMeanAxis0 (X : Mat) : Vec :=
  (List.range (ncols X)).map (fun c => colSum X c / nrows X)

/-- Sum over the rows of the squared deviation of column `c` from `m`. -/
def colSqDevSum (X : Mat) (c : ℕ) (m : ℝ) : ℝ :=
  (X.map (fun row => (row.getD c 0 - m) ^ 2)).sum

/-- `np.std(X, axis=0)`: per-column population standard deviation, the square
root of the mean of the squared deviations (divisor = row count, `ddof = 0`). -/
noncomputable def npStdAxis0 (X : Mat) : Vec :=
  (List.range (ncols X)).map
    (fun c => Real.sqrt (colSqDevSum X c (colSum X c / nrows X) / nrows X))

/-- Failure outcomes of the methods.  `typeError` and `broadcastValueError` are
the exceptions the Python code can actually raise (via numpy); the remaining
four constructors are the error kinds proposed by the specification, present
here only so that the spec's claims about them can be stated — the source
never produces them. -/
inductive PyError where
  /-- numpy `TypeError`: arithmetic between an array and `None` (statistics unset). -/
  | typeError
  /-- numpy `ValueError`: operands could not be broadcast together. -/
  | broadcastValueError
  /-- spec-proposed kind: `transform` before any successful `fit`. -/
  | notFitted
  /-- spec-proposed kind: column count differs from the fitted column count. -/
  | shapeMismatch
  /-- spec-proposed kind: some stored spread is exactly zero. -/
  | divisionByZero
  /-- spec-proposed kind: `fit` called with zero rows. -/
  | invalidInput
  deriving DecidableEq

/-- Length of the result of a numpy elementwise operation between a row of an
array of width `k1` and a 1-D array of length `k2` (last-axis broadcasting);
`none` when the shapes are incompatible. -/
def bcastLen (k1 k2 : ℕ) : Option ℕ :=
  if k1 = k2 then some k1
  else if k1 = 1 then some k2
  else if k2 = 1 then some k1
  else none

/-- numpy elementwise operation between a 2-D array `X` and a 1-D array `v`,
with last-axis broadcasting; fails like numpy when the shapes are
incompatible. -/
def bmap2 (f : ℝ → ℝ → ℝ) (X : Mat) (v : Vec) : Except PyError Mat :=
  match bcastLen (ncols X) v.length with
  | none => .error .broadcastValueError
  | some m => .ok (X.map (fun row =>
      (List.range m).map (fun c =>
        f (row.getD (if ncols X = 1 then 0 else c) 0)
          (v.getD (if v.length = 1 then 0 else c) 0))))

/-- The transformer's state: the two estimated attributes, `None` until `fit`
has run. -/
structure ZScoreTransformer where
  mean_ : Option Vec
  std_ : Option Vec

/-- `__init__`: both statistics start out as `None`. -/
def ZScoreTransformer.init : ZScoreTransformer := ⟨none, none⟩

/-- `fit(X, y=None)`: stores `np.mean(X, axis=0)` and `np.std(X, axis=0)`,
overwriting any previous statistics wholesale, and returns the updated
instance (`return self`); `y` is accepted and ignored. -/
noncomputable def ZScoreTransformer.fit (_t : ZScoreTransformer) (X : Mat)
    (_y : Option Vec) : ZScoreTransformer :=
  { mean_ := some (npMeanAxis0 X), std_ := some (npStdAxis0 X) }

/-- The numpy expression `X - self.mean_`: a `TypeError` when `mean_` is still
`None`, a broadcasting subtraction otherwise. -/
noncomputable def subStep (X : Mat) (mean? : Option Vec) : Except PyError Mat :=
  match mean? with
  | none => .error .typeError
  | some μ => bmap2 (fun a b => a - b) X μ

/-- The numpy expression `d / self.std_` applied to the outcome `d?` of the
subtraction: an already-raised exception propagates; otherwise a `TypeError`
when `std_` is still `None`, and a broadcasting division otherwise. -/
noncomputable def divStep (d? : Except PyError Mat) (std? : Option Vec) :
    Except PyError Mat :=
  match d? with
  | .error e => .error e
  | .ok d =>
    match std? with
    | none => .error .typeError
    | some σ => bmap2 (fun a b => a / b) d σ

/-- `transform(X)`: `(X - self.mean_) / self.std_`.  The instance itself is
not modified (the method only reads `mean_` and `std_`). -/
noncomputable def ZScoreTransformer.transform (t : ZScoreTransformer) (X : Mat) :
    Except PyError Mat :=
  divStep (subStep X t.mean_) t.std_

/-- `fit_transform(X, y=None)`: `self.fit(X).transform(X)`; note the source
calls `fit` with the default `y = None` and ignores its own `y`. -/
noncomputable def ZScoreTransformer.fit_transform (t : ZScoreTransformer)
    (X : Mat) (_y : Option Vec) : Except PyError Mat :=
  (t.fit X none).transform X

/-- Spec wording: the arithmetic mean of feature column `c` across all rows
(sum of the column divided by the row count). -/
noncomputable def specColMean (X : Mat) (c : ℕ) : ℝ :=
  (∑ r ∈ Finset.range (nrows X), entry X r c) / nrows X

/-- Spec wording: the population standard deviation of feature column `c`
(divisor equal to the row count, not the row count minus one). -/
noncomputable def specColStd (X : Mat) (c : ℕ) : ℝ :=
  Real.sqrt ((∑ r ∈ Finset.range (nrows X), (entry X r c - specColMean X c) ^ 2)
    / nrows X)

/-- Spec wording: the element at row `r`, column `c` of the transformed dataset
is `(value - mean[c]) / spread[c]`; the result has the same shape as `X`. -/
noncomputable def zscoreApply (μ σ : Vec) (X : Mat) : Mat :=
  X.map (fun row => (List.range row.length).map
    (fun c => (row.getD c 0 - μ.getD c 0) / σ.getD c 0))

/-! Helper lemmas. -/

/-- Sum of a mapped list of rows, rewritten as a sum over row indices. -/
lemma map_sum_eq_range_sum (X : Mat) (f : Vec → ℝ) :
    (X.map f).sum = ∑ r ∈ Finset.range X.length, f (X.getD r []) := by
  induction X with
  | nil => simp
  | cons a X ih =>
    rw [List.map_cons, List.sum_cons, ih, List.length_cons, Finset.sum_range_succ']
    simp [add_comm]

/-- `getD` of a map over `List.range` at an in-range index. -/
lemma getD_range_map (g : ℕ → ℝ) (k c : ℕ) (hc : c < k) :
    ((List.range k).map g).getD c 0 = g c := by
  rw [List.getD_eq_getElem?_getD, List.getElem?_map, List.getElem?_range hc]
  rfl

/-- The column sums of the embedding agree with the spec's row-indexed sums. -/
lemma colSum_eq_spec (X : Mat) (c : ℕ) :
    colSum X c = ∑ r ∈ Finset.range (nrows X), entry X r c := by
  unfold colSum nrows entry
  exact map_sum_eq_range_sum X _

/-- The squared-deviation sums of the embedding agree with the spec's
row-indexed sums. -/
lemma colSqDevSum_eq_spec (X : Mat) (c : ℕ) (m : ℝ) :
    colSqDevSum X c m = ∑ r ∈ Finset.range (nrows X), (entry X r c - m) ^ 2 := by
  unfold colSqDevSum nrows entry
  exact map_sum_eq_range_sum X _

/-- `np.mean(X, axis=0)` is the spec's per-column arithmetic mean. -/
lemma npMeanAxis0_eq_spec (X : Mat) :
    npMeanAxis0 X = (List.range (ncols X)).map (fun c => specColMean X c) := by
  unfold npMeanAxis0 specColMean
  simp [colSum_eq_spec]

/-- `np.std(X, axis=0)` is the spec's per-column population standard
deviation. -/
lemma npStdAxis0_eq_spec (X : Mat) :
    npStdAxis0 X = (List.range (ncols X)).map (fun c => specColStd X c) := by
  unfold npStdAxis0 specColStd
  simp [colSqDevSum_eq_spec, colSum_eq_spec, specColMean]

/-- `bmap2` when the broadcast is defined, in raw form. -/
lemma bmap2_ok_of_bcast (f : ℝ → ℝ → ℝ) (X : Mat) (v : Vec) (m : ℕ)
    (h : bcastLen (ncols X) v.length = some m) :
    bmap2 f X v = .ok (X.map (fun row =>
      (List.range m).map (fun c =>
        f (row.getD (if ncols X = 1 then 0 else c) 0)
          (v.getD (if v.length = 1 then 0 else c) 0)))) := by
  unfold bmap2
  rw [h]

/-- `bmap2` when the broadcast is undefined. -/
lemma bmap2_error_of_bcast (f : ℝ → ℝ → ℝ) (X : Mat) (v : Vec)
    (h : bcastLen (ncols X) v.length = none) :
    bmap2 f X v = .error .broadcastValueError := by
  unfold bmap2
  rw [h]

/-- `bmap2` between an array and a vector of matching width degenerates to the
columnwise map. -/
lemma bmap2_same (f : ℝ → ℝ → ℝ) (X : Mat) (v : Vec) (k : ℕ)
    (hX : ncols X = k) (hv : v.length = k) :
    bmap2 f X v = .ok (X.map (fun row =>
      (List.range k).map (fun c => f (row.getD c 0) (v.getD c 0)))) := by
  unfold bmap2
  rw [hX, hv]
  by_cases hk : k = 1
  · subst hk
    simp [bcastLen, List.range_succ]
  · simp [bcastLen, hk]

/-- Column count of a rectangular row-map image (nonempty case). -/
lemma ncols_map_range (X : Mat) (g : Vec → ℕ → ℝ) (m : ℕ) (hX : X ≠ []) :
    ncols (X.map (fun row => (List.range m).map (g row))) = m := by
  cases X with
  | nil => exact absurd rfl hX
  | cons r X' => simp [ncols]

/-- Unfolding `transform` on a fitted state. -/
lemma transform_some (μ σ : Vec) (X : Mat) :
    ZScoreTransformer.transform ⟨some μ, some σ⟩ X =
      divStep (bmap2 (fun a b => a - b) X μ) (some σ) := rfl

/-- `divStep` on a successful subtraction. -/
lemma divStep_ok (d : Mat) (σ : Vec) :
    divStep (.ok d) (some σ) = bmap2 (fun a b => a / b) d σ := rfl

/-- `divStep` propagates an already-raised exception. -/
lemma divStep_error (e : PyError) (std? : Option Vec) :
    divStep (.error e) std? = .error e := rfl

/-- Computation of `transform` on a fitted transformer whose stored statistics
match the input's column count: the two broadcasting steps compose into the
single columnwise z-score map. -/
lemma transform_fitted (μ σ : Vec) (X : Mat) (k : ℕ)
    (hμ : μ.length = k) (hσ : σ.length = k) (hX : ncols X = k) :
    ZScoreTransformer.transform ⟨some μ, some σ⟩ X =
      .ok (X.map (fun row => (List.range k).map
        (fun c => (row.getD c 0 - μ.getD c 0) / σ.getD c 0))) := by
  have hdc : ncols (X.map (fun row =>
      (List.range k).map (fun c => row.getD c 0 - μ.getD c 0))) = k := by
    cases X with
    | nil => simpa [ncols] using hX
    | cons r X' => simp [ncols]
  rw [transform_some, bmap2_same _ X μ k hX hμ, divStep_ok,
    bmap2_same _ _ σ k hdc hσ, List.map_map]
  refine congrArg Except.ok (List.map_congr_left ?_)
  intro row _
  refine List.map_congr_left ?_
  intro c hc
  simp only [Function.comp]
  rw [getD_range_map _ k c (List.mem_range.mp hc)]

/-- Column count of a mapped dataset whose image rows all have length `m`
(nonempty case). -/
lemma ncols_map_of_len (X : Mat) (F : Vec → Vec) (m : ℕ) (hX : X ≠ [])
    (hF : ∀ row, (F row).length = m) : ncols (X.map F) = m := by
  cases X with
  | nil => exact absurd rfl hX
  | cons r X' => simp [ncols, hF]

/-- `getD` through a map at an in-range row index. -/
lemma getD_map_lt (X : Mat) (F : Vec → Vec) (r : ℕ) (hr : r < X.length) :
    (X.map F).getD r [] = F (X.getD r []) := by
  rw [List.getD_eq_getElem?_getD, List.getD_eq_getElem?_getD,
    List.getElem?_map, List.getElem?_eq_getElem hr]
  rfl

/-- A fitted transformer is literally the record of its two statistics. -/
lemma eq_mk_of_stats (t : ZScoreTransformer) (μ σ : Vec)
    (hm : t.mean_ = some μ) (hs : t.std_ = some σ) :
    t = ⟨some μ, some σ⟩ := by
  cases t
  simp_all

/-- Entry of `np.mean(X, axis=0)` at an in-range column. -/
lemma npMean_getD (X : Mat) (c : ℕ) (hc : c < ncols X) :
    (npMeanAxis0 X).getD c 0 = colSum X c / nrows X := by
  unfold npMeanAxis0
  rw [getD_range_map _ _ c hc]

/-- Entry of `np.std(X, axis=0)` at an in-range column. -/
lemma npStd_getD (X : Mat) (c : ℕ) (hc : c < ncols X) :
    (npStdAxis0 X).getD c 0
      = Real.sqrt (colSqDevSum X c (colSum X c / nrows X) / nrows X) := by
  unfold npStdAxis0
  rw [getD_range_map _ _ c hc]

/-- Sum of an affinely transformed column. -/
lemma sum_map_sub_div (l : List Vec) (g : Vec → ℝ) (a b : ℝ) :
    (l.map (fun x => (g x - a) / b)).sum
      = ((l.map g).sum - l.length * a) / b := by
  induction l with
  | nil => simp
  | cons x l ih =>
    simp only [List.map_cons, List.sum_cons, List.length_cons, ih]
    push_cast
    ring

/-- Sum of squares of a scaled column. -/
lemma sum_map_sq_div (l : List Vec) (g : Vec → ℝ) (a b : ℝ) :
    (l.map (fun x => ((g x - a) / b) ^ 2)).sum
      = (l.map (fun x => (g x - a) ^ 2)).sum / b ^ 2 := by
  induction l with
  | nil => simp
  | cons x l ih =>
    simp only [List.map_cons, List.sum_cons, ih]
    ring

/-- Column sum of the z-scored output, as a sum over the original rows. -/
lemma colSum_transformed (X : Mat) (v w : Vec) (k c : ℕ) (hc : c < k) :
    colSum (X.map (fun row => (List.range k).map
      (fun j => (row.getD j 0 - v.getD j 0) / w.getD j 0))) c
      = (X.map (fun row => (row.getD c 0 - v.getD c 0) / w.getD c 0)).sum := by
  unfold colSum
  rw [List.map_map]
  refine congrArg List.sum (List.map_congr_left ?_)
  intro row _
  simp only [Function.comp]
  rw [getD_range_map _ k c hc]

/-- Squared-deviation sum of the z-scored output, as a sum over the original
rows. -/
lemma colSqDevSum_transformed (X : Mat) (v w : Vec) (k c : ℕ) (hc : c < k)
    (m : ℝ) :
    colSqDevSum (X.map (fun row => (List.range k).map
      (fun j => (row.getD j 0 - v.getD j 0) / w.getD j 0))) c m
      = (X.map (fun row =>
          ((row.getD c 0 - v.getD c 0) / w.getD c 0 - m) ^ 2)).sum := by
  unfold colSqDevSum
  rw [List.map_map]
  refine congrArg List.sum (List.map_congr_left ?_)
  intro row _
  simp only [Function.comp]
  rw [getD_range_map _ k c hc]

/-! The claims. -/

/-- C1: for every dataset with at least one row, `fit` computes for each
feature column independently the arithmetic mean and the population standard
deviation (divisor = row count) across all rows, stores both as the fitted
statistics, and the value it returns is exactly the updated instance carrying
those statistics (the embedding renders Python's `return self` as returning
the post-update state, so returned value and stored state coincide by
construction). -/
theorem C1_fit_stores_mean_and_population_std (t : ZScoreTransformer) (X : Mat)
    (y : Option Vec) (_hX : X ≠ []) :
    t.fit X y =
      { mean_ := some ((List.range (ncols X)).map (fun c => specColMean X c)),
        std_ := some ((List.range (ncols X)).map (fun c => specColStd X c)) } := by
  unfold ZScoreTransformer.fit
  rw [npMeanAxis0_eq_spec, npStdAxis0_eq_spec]

/-- Witness for C1 at the one-row dataset `[[1, 10]]`. -/
theorem C1_witness :
    ([[1, 10]] : Mat) ≠ [] ∧
    ZScoreTransformer.fit ZScoreTransformer.init [[1, 10]] none =
      { mean_ := some ((List.range (ncols [[1, 10]])).map
          (fun c => specColMean [[1, 10]] c)),
        std_ := some ((List.range (ncols [[1, 10]])).map
          (fun c => specColStd [[1, 10]] c)) } :=
  ⟨by simp,
    C1_fit_stores_mean_and_population_std ZScoreTransformer.init [[1, 10]] none
      (by simp)⟩

/-- C2: for every fitted transformer and every dataset whose column count
equals the fitted column count, `transform` returns a new dataset of identical
shape whose element at row `r`, column `c` is `(value - mean[c]) / spread[c]`
(the embedding is purely functional, so the input dataset and the stored
statistics are unchanged by construction: `transform` only reads them). -/
theorem C2_transform_is_columnwise_zscore (t : ZScoreTransformer) (μ σ : Vec)
    (X : Mat) (k : ℕ) (hm : t.mean_ = some μ) (hs : t.std_ = some σ)
    (hμ : μ.length = k) (hσ : σ.length = k) (hX : ncols X = k) (hR : Rect k X) :
    t.transform X = .ok (zscoreApply μ σ X) ∧
    (zscoreApply μ σ X).length = X.length ∧
    (∀ row ∈ zscoreApply μ σ X, row.length = k) ∧
    (∀ r c : ℕ, r < nrows X → c < k →
      entry (zscoreApply μ σ X) r c = (entry X r c - μ.getD c 0) / σ.getD c 0) := by
  have hz : zscoreApply μ σ X = X.map (fun row => (List.range k).map
      (fun c => (row.getD c 0 - μ.getD c 0) / σ.getD c 0)) := by
    unfold zscoreApply
    refine List.map_congr_left ?_
    intro row hrow
    rw [hR row hrow]
  refine ⟨?_, ?_, ?_, ?_⟩
  · rw [eq_mk_of_stats t μ σ hm hs, hz]
    exact transform_fitted μ σ X k hμ hσ hX
  · unfold zscoreApply
    simp
  · intro row hrow
    rw [hz] at hrow
    obtain ⟨row0, _, rfl⟩ := List.mem_map.mp hrow
    simp
  · intro r c hr hc
    rw [hz]
    unfold entry nrows at *
    rw [getD_map_lt X _ r hr, getD_range_map _ k c hc]

/-- Witness for C2 with statistics `mean = [0]`, `spread = [1]` and the
dataset `[[5]]`. -/
theorem C2_witness :
    ZScoreTransformer.transform ⟨some [0], some [1]⟩ [[5]] =
      .ok (zscoreApply [0] [1] [[5]]) :=
  (C2_transform_is_columnwise_zscore ⟨some [0], some [1]⟩ [0] [1] [[5]] 1
    rfl rfl rfl rfl rfl
    (by intro row hrow; rw [List.mem_singleton] at hrow; subst hrow; rfl)).1

/-- C3: `fit_transform(D)` produces exactly the same result as calling `fit(D)`
and then `transform(D)` on the same instance; `fit_transform` calls `fit` with
the default `y = None`, and `fit` ignores `y`, so the two sides agree
definitionally for every `y`. -/
theorem C3_fit_transform_is_fit_then_transform (t : ZScoreTransformer)
    (X : Mat) (y : Option Vec) :
    t.fit_transform X y = (t.fit X y).transform X := rfl

/-- C6 counterexample: on a freshly initialized transformer, `transform` of
the dataset `[[1]]` fails with numpy's `TypeError` (array minus `None`), not
with a `NotFitted` error. -/
theorem C6_counterexample :
    ZScoreTransformer.transform ZScoreTransformer.init [[1]] =
      .error .typeError ∧
    ZScoreTransformer.transform ZScoreTransformer.init [[1]] ≠
      .error .notFitted := by
  refine ⟨rfl, ?_⟩
  intro h
  rw [show ZScoreTransformer.transform ZScoreTransformer.init [[1]] =
      Except.error PyError.typeError from rfl] at h
  exact PyError.noConfusion (Except.error.inj h)

/-- C6 (amended): `transform` on an instance whose statistics were never set
does fail, but with the numeric library's `TypeError` (subtracting `None`),
not with a dedicated `NotFitted` error — no such error kind exists in the
code. -/
theorem C6_amended_unfitted_transform_raises_typeerror (t : ZScoreTransformer)
    (X : Mat) (h : t.mean_ = none) :
    t.transform X = .error .typeError := by
  unfold ZScoreTransformer.transform subStep
  rw [h]
  exact divStep_error PyError.typeError t.std_

/-- Witness for the amended C6 at a fresh instance and the dataset `[[1]]`. -/
theorem C6_amended_witness :
    ZScoreTransformer.transform ZScoreTransformer.init [[1]] =
      .error .typeError :=
  C6_amended_unfitted_transform_raises_typeerror ZScoreTransformer.init [[1]] rfl

/-- C9 counterexample: `fit` called on the dataset with zero rows completes
normally and installs statistics (empty here; NaN-valued in numpy, which only
emits a RuntimeWarning) instead of failing with `InvalidInput`. -/
theorem C9_counterexample :
    ZScoreTransformer.fit ZScoreTransformer.init [] none =
      { mean_ := some [], std_ := some [] } := rfl

/-- C9 (amended): `fit` performs no input validation whatsoever; called on a
dataset with zero rows it does not fail — it completes and installs
statistics (NaN-valued in numpy), and no `InvalidInput` error kind exists in
the code. -/
theorem C9_amended_fit_accepts_zero_rows (t : ZScoreTransformer)
    (y : Option Vec) :
    ((t.fit [] y).mean_).isSome = true ∧ ((t.fit [] y).std_).isSome = true :=
  ⟨rfl, rfl⟩

/-- C7 counterexample: after fitting on the constant column `[[1],[1]]` the
stored spread is exactly `[0]`, yet `transform` of `[[1],[2]]` does not fail
with `DivisionByZero` — the division is performed unconditionally (numpy only
emits a RuntimeWarning and propagates non-finite values). -/
theorem C7_counterexample :
    (ZScoreTransformer.fit ZScoreTransformer.init [[1], [1]] none).std_ =
      some [0] ∧
    ((ZScoreTransformer.fit ZScoreTransformer.init [[1], [1]] none).transform
      [[1], [2]]).isOk = true ∧
    (ZScoreTransformer.fit ZScoreTransformer.init [[1], [1]] none).transform
      [[1], [2]] ≠ .error .divisionByZero := by
  have hok : ((ZScoreTransformer.fit ZScoreTransformer.init [[1], [1]]
      none).transform [[1], [2]]).isOk = true := by
    rw [show ZScoreTransformer.fit ZScoreTransformer.init [[1], [1]] none =
        ⟨some (npMeanAxis0 [[1], [1]]), some (npStdAxis0 [[1], [1]])⟩ from rfl,
      transform_fitted (npMeanAxis0 [[1], [1]]) (npStdAxis0 [[1], [1]])
        [[1], [2]] 1 (by simp [npMeanAxis0, ncols])
        (by simp [npStdAxis0, ncols]) rfl]
    rfl
  refine ⟨?_, hok, ?_⟩
  · show some (npStdAxis0 [[1], [1]]) = some [0]
    unfold npStdAxis0 colSqDevSum colSum ncols nrows
    norm_num [List.range_succ, Real.sqrt_zero]
  · intro h
    rw [h] at hok
    exact Bool.noConfusion hok

/-- C7 (amended): `transform` never inspects the stored spread: for every
fitted transformer — even one with a zero entry in the spread, as stored
after fitting a constant column — and every input of matching column count,
`transform` returns successfully.  The division is performed unconditionally
(numpy silently propagates non-finite values), and no `DivisionByZero` error
kind exists in the code. -/
theorem C7_amended_transform_ignores_zero_spread (t : ZScoreTransformer)
    (μ σ : Vec) (X : Mat) (k : ℕ) (hm : t.mean_ = some μ)
    (hs : t.std_ = some σ) (hμ : μ.length = k) (hσ : σ.length = k)
    (hX : ncols X = k) (_hzero : (0 : ℝ) ∈ σ) :
    (t.transform X).isOk = true := by
  rw [eq_mk_of_stats t μ σ hm hs, transform_fitted μ σ X k hμ hσ hX]
  rfl

/-- Witness for the amended C7 with `mean = [1]`, `spread = [0]` and the
dataset `[[1]]`. -/
theorem C7_amended_witness :
    (ZScoreTransformer.transform ⟨some [1], some [0]⟩ [[1]]).isOk = true :=
  C7_amended_transform_ignores_zero_spread ⟨some [1], some [0]⟩ [1] [0] [[1]] 1
    rfl rfl rfl rfl rfl (by simp)

/-- C8 counterexample: with statistics fitted on the 1-column dataset
`[[1],[2]]`, transforming the 2-column dataset `[[3,4]]` does not fail at all
— numpy broadcasting silently stretches the length-1 statistics across both
columns — in particular it does not fail with `ShapeMismatch`. -/
theorem C8_counterexample :
    ((ZScoreTransformer.fit ZScoreTransformer.init [[1], [2]] none).transform
      [[3, 4]]).isOk = true ∧
    (ZScoreTransformer.fit ZScoreTransformer.init [[1], [2]] none).transform
      [[3, 4]] ≠ .error .shapeMismatch := by
  have hok : ((ZScoreTransformer.fit ZScoreTransformer.init [[1], [2]]
      none).transform [[3, 4]]).isOk = true := rfl
  refine ⟨hok, ?_⟩
  intro h
  rw [h] at hok
  exact Bool.noConfusion hok

/-- C8 (amended): the code contains no `ShapeMismatch` check; an input whose
column count differs from the length of the stored statistics goes through
numpy's last-axis broadcasting: when either count is 1 the transform silently
succeeds, and otherwise it fails with a broadcasting `ValueError`. -/
theorem C8_amended_shape_mismatch_broadcasts_or_valueerror
    (t : ZScoreTransformer) (μ σ : Vec) (X : Mat) (k k' : ℕ)
    (hm : t.mean_ = some μ) (hs : t.std_ = some σ)
    (hμ : μ.length = k) (hσ : σ.length = k) (hX : ncols X = k')
    (hne : k' ≠ k) :
    (k' = 1 ∨ k = 1 → (t.transform X).isOk = true) ∧
    (k' ≠ 1 → k ≠ 1 → t.transform X = .error .broadcastValueError) := by
  rw [eq_mk_of_stats t μ σ hm hs]
  constructor
  · rintro (h1 | h1)
    · subst h1
      have hk1 : k ≠ 1 := fun h => hne (h ▸ rfl)
      have hbc : bcastLen (ncols X) μ.length = some k := by
        rw [hX, hμ]
        unfold bcastLen
        rw [if_neg (fun h => hk1 h.symm), if_pos rfl]
      have hXne : X ≠ [] := by
        intro he
        rw [he] at hX
        exact one_ne_zero hX.symm
      rw [transform_some, bmap2_ok_of_bcast _ X μ k hbc, divStep_ok,
        bmap2_same _ _ σ k (ncols_map_of_len X _ k hXne (fun row => by simp)) hσ]
      rfl
    · subst h1
      have hbc : bcastLen (ncols X) μ.length = some k' := by
        rw [hX, hμ]
        unfold bcastLen
        rw [if_neg hne, if_neg hne, if_pos rfl]
      rw [transform_some, bmap2_ok_of_bcast _ X μ k' hbc, divStep_ok]
      by_cases hXe : X = []
      · subst hXe
        rw [show ([] : Mat).map (fun row => (List.range k').map (fun c =>
            (fun a b => a - b) (row.getD (if ncols ([] : Mat) = 1 then 0 else c) 0)
              (μ.getD (if μ.length = 1 then 0 else c) 0))) = ([] : Mat)
          from rfl]
        rw [bmap2_ok_of_bcast _ ([] : Mat) σ 0 (by
          rw [hσ]
          unfold bcastLen ncols
          simp)]
        rfl
      · rw [bmap2_ok_of_bcast _ _ σ k' (by
          rw [ncols_map_of_len X _ k' hXe (fun row => by simp), hσ]
          unfold bcastLen
          rw [if_neg hne, if_neg hne, if_pos rfl])]
        rfl
  · intro hk'1 hk1
    have hbc : bcastLen (ncols X) μ.length = none := by
      rw [hX, hμ]
      unfold bcastLen
      rw [if_neg hne, if_neg hk'1, if_neg hk1]
    rw [transform_some, bmap2_error_of_bcast _ X μ hbc, divStep_error]

/-- Witness for the amended C8: statistics of length 2, input of width 3 —
the transform fails with the broadcasting `ValueError`. -/
theorem C8_amended_witness :
    ZScoreTransformer.transform ⟨some [0, 0], some [1, 1]⟩ [[1, 2, 3]] =
      .error .broadcastValueError :=
  (C8_amended_shape_mismatch_broadcasts_or_valueerror
    ⟨some [0, 0], some [1, 1]⟩ [0, 0] [1, 1] [[1, 2, 3]] 2 3
    rfl rfl rfl rfl rfl (by decide)).2 (by decide) (by decide)

/-- C4: for any dataset with at least one row, calling `fit` and then
`transform` on that same dataset yields, in every column whose spread is
nonzero, values whose mean is exactly 0 and whose standard deviation is
exactly 1 (the embedding computes with exact reals, so "within floating-point
tolerance" sharpens to exact equality). -/
theorem C4_fit_then_transform_standardizes (t : ZScoreTransformer) (X : Mat)
    (y : Option Vec) (k c : ℕ) (hR : Rect k X) (hn : X ≠ []) (hc : c < k)
    (hσ0 : (npStdAxis0 X).getD c 0 ≠ 0) :
    ∃ Y, (t.fit X y).transform X = .ok Y ∧
      (npMeanAxis0 Y).getD c 0 = 0 ∧ (npStdAxis0 Y).getD c 0 = 1 := by
  have hk : ncols X = k := by
    cases X with
    | nil => exact absurd rfl hn
    | cons r X' => simpa [ncols] using hR r (List.mem_cons_self r X')
  have hμl : (npMeanAxis0 X).length = k := by simp [npMeanAxis0, hk]
  have hσl : (npStdAxis0 X).length = k := by simp [npStdAxis0, hk]
  have hnR : ((nrows X : ℕ) : ℝ) ≠ 0 := by
    have hpos : 0 < X.length := List.length_pos_iff_ne_nil.mpr hn
    exact_mod_cast Nat.pos_iff_ne_zero.mp hpos
  set Y := X.map (fun row => (List.range k).map
    (fun j => (row.getD j 0 - (npMeanAxis0 X).getD j 0)
      / (npStdAxis0 X).getD j 0)) with hY
  have htr : (t.fit X y).transform X = .ok Y := by
    rw [show t.fit X y =
        (⟨some (npMeanAxis0 X), some (npStdAxis0 X)⟩ : ZScoreTransformer)
      from rfl]
    exact transform_fitted _ _ X k hμl hσl hk
  have hYc : ncols Y = k := ncols_map_of_len X _ k hn (fun row => by simp)
  have hcY : c < ncols Y := by rw [hYc]; exact hc
  have hcX : c < ncols X := by rw [hk]; exact hc
  have hm : (npMeanAxis0 X).getD c 0 = colSum X c / nrows X := npMean_getD X c hcX
  have hs : (npStdAxis0 X).getD c 0
      = Real.sqrt (colSqDevSum X c (colSum X c / nrows X) / nrows X) :=
    npStd_getD X c hcX
  have hV : 0 < colSqDevSum X c (colSum X c / nrows X) / nrows X := by
    rw [hs] at hσ0
    exact Real.sqrt_ne_zero'.mp hσ0
  have hSDpos : 0 < colSqDevSum X c (colSum X c / nrows X) := by
    have h1 : colSqDevSum X c (colSum X c / nrows X)
        = colSqDevSum X c (colSum X c / nrows X) / nrows X * nrows X :=
      (div_mul_cancel₀ _ hnR).symm
    rw [h1]
    have hposn : (0 : ℝ) < nrows X :=
      lt_of_le_of_ne (Nat.cast_nonneg _) (Ne.symm hnR)
    exact mul_pos hV hposn
  have hsum0 : colSum Y c = 0 := by
    rw [hY, colSum_transformed X _ _ k c hc, hm,
      sum_map_sub_div X (fun row => row.getD c 0) (colSum X c / nrows X)
        ((npStdAxis0 X).getD c 0),
      show (X.map (fun row => row.getD c 0)).sum = colSum X c from rfl]
    have hz : colSum X c - (X.length : ℝ) * (colSum X c / nrows X) = 0 := by
      unfold nrows at hnR ⊢
      field_simp
    rw [hz, zero_div]
  have hmean : (npMeanAxis0 Y).getD c 0 = 0 := by
    rw [npMean_getD Y c hcY, hsum0, zero_div]
  have hstd : (npStdAxis0 Y).getD c 0 = 1 := by
    rw [npStd_getD Y c hcY, hsum0, zero_div, hY,
      colSqDevSum_transformed X _ _ k c hc 0]
    simp only [sub_zero]
    rw [hm, hs,
      sum_map_sq_div X (fun row => row.getD c 0) (colSum X c / nrows X)
        (Real.sqrt (colSqDevSum X c (colSum X c / nrows X) / nrows X)),
      Real.sq_sqrt hV.le,
      show (X.map (fun row => (row.getD c 0 - colSum X c / nrows X) ^ 2)).sum
        = colSqDevSum X c (colSum X c / nrows X) from rfl,
      show nrows Y = nrows X by simp [nrows, hY]]
    have halg : colSqDevSum X c (colSum X c / nrows X)
        / (colSqDevSum X c (colSum X c / nrows X) / nrows X) / nrows X = 1 := by
      rw [div_div_eq_mul_div]
      field_simp
    rw [halg, Real.sqrt_one]
  exact ⟨Y, htr, hmean, hstd⟩

/-- Witness for C4 at the dataset `[[1],[2]]`, column 0. -/
theorem C4_witness :
    ∃ Y, (ZScoreTransformer.fit ZScoreTransformer.init [[1], [2]]
        none).transform [[1], [2]] = .ok Y ∧
      (npMeanAxis0 Y).getD 0 0 = 0 ∧ (npStdAxis0 Y).getD 0 0 = 1 :=
  C4_fit_then_transform_standardizes ZScoreTransformer.init [[1], [2]] none 1 0
    (by
      intro row hrow
      rcases List.mem_cons.mp hrow with h | h
      · rw [h]
        rfl
      · rw [List.mem_singleton.mp h]
        rfl)
    (by simp) (by decide)
    (by
      rw [npStd_getD [[1], [2]] 0 (by decide)]
      rw [Real.sqrt_ne_zero']
      unfold colSqDevSum colSum nrows
      norm_num)

/-- C5: fitting on `[[1,10],[2,20],[3,30]]` yields `mean = [2, 20]` exactly and
a spread equal to `[0.8165, 8.165]` to the displayed four-digit precision (the
exact values are `√(2/3) ≈ 0.81650` and `√(200/3) ≈ 8.1650`), and transforming
`[[2, 20]]` with those statistics yields `[[0, 0]]` exactly. -/
theorem C5_concrete_example :
    (ZScoreTransformer.fit ZScoreTransformer.init
      [[1, 10], [2, 20], [3, 30]] none).mean_ = some [2, 20] ∧
    (ZScoreTransformer.fit ZScoreTransformer.init
      [[1, 10], [2, 20], [3, 30]] none).std_ =
        some [Real.sqrt (2 / 3), Real.sqrt (200 / 3)] ∧
    |Real.sqrt (2 / 3) - 0.8165| < 0.0001 ∧
    |Real.sqrt (200 / 3) - 8.165| < 0.001 ∧
    (ZScoreTransformer.fit ZScoreTransformer.init
      [[1, 10], [2, 20], [3, 30]] none).transform [[2, 20]] = .ok [[0, 0]] := by
  refine ⟨?_, ?_, ?_, ?_, ?_⟩
  · show some (npMeanAxis0 [[1, 10], [2, 20], [3, 30]]) = some [2, 20]
    unfold npMeanAxis0 colSum ncols nrows
    norm_num [List.range_succ]
  · show some (npStdAxis0 [[1, 10], [2, 20], [3, 30]]) =
      some [Real.sqrt (2 / 3), Real.sqrt (200 / 3)]
    unfold npStdAxis0 colSqDevSum colSum ncols nrows
    norm_num [List.range_succ]
  · rw [abs_lt]
    constructor
    · have h : (0.8164 : ℝ) < Real.sqrt (2 / 3) := by
        rw [Real.lt_sqrt (by norm_num)]
        norm_num
      linarith
    · have h : Real.sqrt (2 / 3) < (0.8165 : ℝ) := by
        rw [Real.sqrt_lt' (by norm_num)]
        norm_num
      linarith
  · rw [abs_lt]
    constructor
    · have h : (8.1649 : ℝ) < Real.sqrt (200 / 3) := by
        rw [Real.lt_sqrt (by norm_num)]
        norm_num
      linarith
    · have h : Real.sqrt (200 / 3) < (8.165 : ℝ) := by
        rw [Real.sqrt_lt' (by norm_num)]
        norm_num
      linarith
  · rw [show ZScoreTransformer.fit ZScoreTransformer.init
        [[1, 10], [2, 20], [3, 30]] none =
        (⟨some (npMeanAxis0 [[1, 10], [2, 20], [3, 30]]),
          some (npStdAxis0 [[1, 10], [2, 20], [3, 30]])⟩ : ZScoreTransformer)
      from rfl,
      transform_fitted _ _ [[2, 20]] 2 (by simp [npMeanAxis0, ncols])
        (by simp [npStdAxis0, ncols]) rfl]
    refine congrArg Except.ok ?_
    simp only [List.range_succ, List.range_zero, List.nil_append,
      List.cons_append, List.map_cons, List.map_nil]
    rw [npMean_getD _ 0 (by decide), npMean_getD _ 1 (by decide)]
    unfold colSum nrows
    norm_num

/-- C10: the optional `y` argument is accepted and ignored: `fit` stores
identical statistics and `fit_transform` returns identical results for any
two values of `y`. -/
theorem C10_result_independent_of_y (t : ZScoreTransformer) (X : Mat)
    (y1 y2 : Option Vec) :
    t.fit X y1 = t.fit X y2 ∧ t.fit_transform X y1 = t.fit_transform X y2 :=
  ⟨rfl, rfl⟩

end ZScore
